import Mathlib

/-!
Verification of the BVH motion-capture parser core of this repository
(`src/utils/parse_bvh.py`, function `parse_bvh`).

The parser reads a MotionBuilder-style BVH file through the third-party
`bvh` library (`from bvh import Bvh`), whose sources are not part of this
repository.  The parser's own logic — the fixed root channel order, the
Z/Y/X rotation fallback for non-root joints, the frame assembly and the
resulting dataset shape — is embedded here faithfully from the source.
The library accessors the source calls (`get_joints`, `nframes`,
`frame_time`, `frame_joint_channel`) are modelled from the spec's
Skeleton Reader / Channel Resolver contracts, as noted on each definition.

Numeric channel samples are embedded as exact rationals: the parser only
moves sample values around (the final `np.float32` storage precision is a
floating-point representation concern outside this embedding).
-/

/-- One joint of the skeleton: its name and its declared channel list
(channel identifiers such as "Xposition" or "Zrotation", in declaration
order), as produced by the Skeleton Reader from the hierarchy block. -/
structure Joint where
  name : String
  channels : List String
deriving Repr, DecidableEq, Inhabited

/-- Modelled from the spec: the tokenised view of a BVH file that the
third-party `Bvh` class (not in this repository's sources) hands to the
parser.  `joints` is the depth-first ordered joint list returned by
`get_joints` (empty exactly when the hierarchy block is absent, in which
case `get_joints` fails); `frames` holds the raw per-frame sample rows in
channel declaration order; `nframes` is the declared frame count and
`frame_time` the declared frame interval. -/
structure Mocap where
  joints : List Joint
  frames : List (List Rat)
  nframes : Nat
  frame_time : Rat
deriving Repr, DecidableEq

/-- Modelled from the spec: the error taxonomy of section 7.
`malformedHeader` — hierarchy block missing; `missingChannel` — a channel
lookup for a joint that does not declare that channel (the condition the
source's fallback loop catches and continues past); `frameIndex` — a frame
index beyond the available sampled data; `jointNotFound` — a channel lookup
under a joint name that no joint of the file bears. -/
inductive ParseError where
  | malformedHeader : ParseError
  | missingChannel : String → String → Nat → ParseError
  | frameIndex : Nat → ParseError
  | jointNotFound : String → ParseError
deriving Repr, DecidableEq

/-- The Motion Dataset returned by `parse_bvh`: the dictionary
`{"joint_names": ..., "frames": ..., "frame_time": ...}` of the source. -/
structure MotionData where
  joint_names : List String
  frames : List (List Rat)
  frame_time : Rat
deriving Repr, DecidableEq

/-- Decidable equality of fallible results, so that concrete runs of the
parser can be checked by evaluation. -/
instance {ε α : Type} [DecidableEq ε] [DecidableEq α] :
    DecidableEq (Except ε α) := fun x y =>
  match x, y with
  | .ok a, .ok b =>
    if h : a = b then isTrue (by rw [h])
    else isFalse (fun hh => h (Except.ok.inj hh))
  | .ok _, .error _ => isFalse (fun hh => Except.noConfusion hh)
  | .error _, .ok _ => isFalse (fun hh => Except.noConfusion hh)
  | .error e, .error f =>
    if h : e = f then isTrue (by rw [h])
    else isFalse (fun hh => h (Except.error.inj hh))

/-- Position of a channel name inside a joint's declared channel list
(the library's `channels.index(channel)` lookup): first occurrence wins,
`none` when the joint does not declare the channel. -/
def index_of_channel (ch : String) : List String → Option Nat
  | [] => none
  | c :: rest =>
    if c = ch then some 0
    else (index_of_channel ch rest).map (· + 1)

/-- Locate a joint by name in the depth-first joint list together with the
offset of its first channel in a raw frame row (the library's
`get_joint_channels_index`: channel counts of all preceding joints are
summed; the first joint bearing the name wins). -/
def find_joint : List Joint → String → Option (Joint × Nat)
  | [], _ => none
  | j :: rest, name =>
    if j.name = name then some (j, 0)
    else (find_joint rest name).map (fun p => (p.1, j.channels.length + p.2))

/-- Modelled from the spec: the third-party library's
`frame_joint_channel(frame_index, joint, channel)` accessor, per the
Channel Resolver contract.  The joint is located by name; a channel the
joint does not declare signals the missing-channel condition (the condition
the source's fallback loop catches); a frame index beyond the available
sampled rows signals the frame-index condition; an unknown joint name
signals a lookup failure.  On success the raw sample at the joint's channel
offset is returned unmodified. -/
def frame_joint_channel (m : Mocap) (i : Nat) (name ch : String) :
    Except ParseError Rat :=
  match find_joint m.joints name with
  | none => .error (.jointNotFound name)
  | some (j, jidx) =>
    match index_of_channel ch j.channels with
    | none => .error (.missingChannel name ch i)
    | some cidx =>
      match m.frames.get? i with
      | none => .error (.frameIndex i)
      | some row =>
        match row.get? (jidx + cidx) with
        | none => .error (.frameIndex i)
        | some v => .ok v

/-- Recognises the missing-channel condition — exactly what the source's
`except KeyError` clause catches inside the rotation fallback loop. -/
def is_missing_channel : ParseError → Bool
  | .missingChannel _ _ _ => true
  | _ => false

/-- A lookup result that failed specifically with the missing-channel
condition. -/
def missing_channel_result : Except ParseError Rat → Bool
  | .error e => is_missing_channel e
  | .ok _ => false

/-- The source's fallback loop for one non-root joint:
`rot_val = 0.0; for axis in axes: try: rot_val = lookup(axis); break;
except KeyError: continue`.  The first axis whose lookup succeeds supplies
the value; a missing-channel failure moves on to the next axis; any other
failure propagates; when every axis is missing the initial `0.0` stands. -/
def try_axes (m : Mocap) (i : Nat) (joint : String) :
    List String → Except ParseError Rat
  | [] => .ok 0
  | c :: rest =>
    match frame_joint_channel m i joint c with
    | .ok v => .ok v
    | .error e =>
      if is_missing_channel e then try_axes m i joint rest else .error e

/-- The non-root rotation resolver of the source: try `Zrotation`, then
`Yrotation`, then `Xrotation`, in that fixed order. -/
def resolve_rot (m : Mocap) (i : Nat) (joint : String) :
    Except ParseError Rat :=
  try_axes m i joint ["Zrotation", "Yrotation", "Xrotation"]

/-- The source's root position comprehension
`[... for c in ["Xposition", "Yposition", "Zposition"]]` generalised to
any channel list: look every channel up in order, failing at the first
failure. -/
def lookup_channels (m : Mocap) (i : Nat) (joint : String) :
    List String → Except ParseError (List Rat)
  | [] => .ok []
  | c :: rest =>
    match frame_joint_channel m i joint c with
    | .error e => .error e
    | .ok v =>
      match lookup_channels m i joint rest with
      | .error e => .error e
      | .ok vs => .ok (v :: vs)

/-- The six mandatory root channels in the exact order the source looks
them up: X, Y, Z position, then Z, X, Y rotation. -/
def root_channel_order : List String :=
  ["Xposition", "Yposition", "Zposition", "Zrotation", "Xrotation", "Yrotation"]

/-- The source's inner loop `for joint in joint_names[1:]`: one resolved
rotation value per non-root joint, in skeleton order. -/
def rots_for (m : Mocap) (i : Nat) : List String → Except ParseError (List Rat)
  | [] => .ok []
  | j :: rest =>
    match resolve_rot m i j with
    | .error e => .error e
    | .ok v =>
      match rots_for m i rest with
      | .error e => .error e
      | .ok vs => .ok (v :: vs)

/-- One Motion Row of the source's frame loop body: root position (X,Y,Z),
then root rotation in MotionBuilder order (Z,X,Y), both looked up under the
literal joint name "Hips", then one resolved rotation scalar per non-root
joint (`tail` is `joint_names[1:]`), concatenated in that order. -/
def build_row (m : Mocap) (i : Nat) (tail : List String) :
    Except ParseError (List Rat) :=
  match lookup_channels m i "Hips" ["Xposition", "Yposition", "Zposition"] with
  | .error e => .error e
  | .ok hips_pos =>
    match lookup_channels m i "Hips" ["Zrotation", "Xrotation", "Yrotation"] with
    | .error e => .error e
    | .ok hips_rot =>
      match rots_for m i tail with
      | .error e => .error e
      | .ok rots => .ok (hips_pos ++ hips_rot ++ rots)

/-- The source's outer loop `for i in range(mocap.nframes)`: frames 0
through `n - 1` assembled in order and appended to the frame list; the
first failing frame aborts the whole build. -/
def build_frames (m : Mocap) (tail : List String) :
    Nat → Except ParseError (List (List Rat))
  | 0 => .ok []
  | n + 1 =>
    match build_frames m tail n with
    | .error e => .error e
    | .ok prev =>
      match build_row m n tail with
      | .error e => .error e
      | .ok row => .ok (prev ++ [row])

/-- The core `parse_bvh` of `src/utils/parse_bvh.py`: obtain the
depth-first joint name list (failing on an absent hierarchy block, before
any frame is touched), assemble every declared frame, and wrap joint
names, frame matrix and frame time into the result dictionary. -/
def parse_bvh (m : Mocap) : Except ParseError MotionData :=
  match m.joints with
  | [] => .error .malformedHeader
  | _ :: _ =>
    match build_frames m ((m.joints.map Joint.name).drop 1) m.nframes with
    | .error e => .error e
    | .ok fs => .ok ⟨m.joints.map Joint.name, fs, m.frame_time⟩

/-- Total number of channel samples one well-formed raw frame row carries:
the sum of all joints' declared channel counts. -/
def total_channels (joints : List Joint) : Nat :=
  (joints.map (fun j => j.channels.length)).sum

/-- The spec's section 8 scenario file, as a tokenised Mocap: a 3-joint
skeleton (Hips root with all six mandatory channels, Spine with only a
Y-rotation channel, Head with no rotation channel at all) and 2 frames.
The root declares its channels in an order different from the output
order, so that the fixed output order is observable. -/
def ex_mocap : Mocap :=
  { joints :=
      [ ⟨"Hips", ["Xposition", "Yposition", "Zposition",
                  "Xrotation", "Yrotation", "Zrotation"]⟩,
        ⟨"Spine", ["Yrotation"]⟩,
        ⟨"Head", []⟩ ],
    frames := [[1, 2, 3, 4, 5, 6, 7], [8, 9, 10, 11, 12, 13, 14]],
    nframes := 2,
    frame_time := 3 }

/-- The Motion Dataset `parse_bvh` produces from `ex_mocap`. -/
def ex_motion : MotionData :=
  { joint_names := ["Hips", "Spine", "Head"],
    frames := [[1, 2, 3, 6, 4, 5, 7, 0], [8, 9, 10, 13, 11, 12, 14, 0]],
    frame_time := 3 }

/-- A file exercising every branch of the rotation fallback priority:
joint "A" declares all three rotation axes, "B" only Y and X, "C" only X. -/
def ex_prio : Mocap :=
  { joints :=
      [ ⟨"Hips", ["Xposition", "Yposition", "Zposition",
                  "Zrotation", "Xrotation", "Yrotation"]⟩,
        ⟨"A", ["Zrotation", "Yrotation", "Xrotation"]⟩,
        ⟨"B", ["Yrotation", "Xrotation"]⟩,
        ⟨"C", ["Xrotation"]⟩ ],
    frames := [[1, 2, 3, 4, 5, 6, 41, 42, 43, 51, 52, 61]],
    nframes := 1,
    frame_time := 2 }

/-- A file whose root joint is named "Root" — not "Hips" — yet declares
all six mandatory channels, while its second (non-root) joint happens to
be named "Hips" and also declares all six. -/
def cex_mocap : Mocap :=
  { joints := [⟨"Root", root_channel_order⟩, ⟨"Hips", root_channel_order⟩],
    frames := [[1, 2, 3, 4, 5, 6, 7, 8, 9, 10, 11, 12]],
    nframes := 1,
    frame_time := 9 }

/-- A one-frame file whose only joint is a root named "Root" — not
"Hips" — that lacks the mandatory Y-rotation channel. -/
def cex5_mocap : Mocap :=
  { joints := [⟨"Root", ["Xposition", "Yposition", "Zposition",
      "Zrotation", "Xrotation"]⟩],
    frames := [[1, 2, 3, 4, 5]],
    nframes := 1,
    frame_time := 6 }


/-- A successful multi-channel lookup returns one value per requested
channel. -/
theorem lookup_channels_ok_length (m : Mocap) (i : Nat) (joint : String) :
    ∀ (cs : List String) (vs : List Rat),
      lookup_channels m i joint cs = .ok vs → vs.length = cs.length := by
  intro cs
  induction cs with
  | nil =>
    intro vs h
    simp only [lookup_channels] at h
    cases h
    rfl
  | cons c rest ih =>
    intro vs h
    simp only [lookup_channels] at h
    split at h
    · exact absurd h (by simp)
    · split at h
      · exact absurd h (by simp)
      · cases h
        simpa using ih _ (by assumption)

/-- Inversion of a successful lookup of a channel list headed by `c`. -/
theorem lookup_channels_cons_ok (m : Mocap) (i : Nat) (joint c : String)
    (cs : List String) (vs : List Rat)
    (h : lookup_channels m i joint (c :: cs) = .ok vs) :
    ∃ v ws, frame_joint_channel m i joint c = .ok v ∧
      lookup_channels m i joint cs = .ok ws ∧ vs = v :: ws := by
  simp only [lookup_channels] at h
  split at h
  · exact absurd h (by simp)
  · split at h
    · exact absurd h (by simp)
    · cases h
      exact ⟨_, _, by assumption, by assumption, rfl⟩

/-- A successful fallback resolution pass returns one value per non-root
joint. -/
theorem rots_for_ok_length (m : Mocap) (i : Nat) :
    ∀ (ts : List String) (vs : List Rat),
      rots_for m i ts = .ok vs → vs.length = ts.length := by
  intro ts
  induction ts with
  | nil =>
    intro vs h
    simp only [rots_for] at h
    cases h
    rfl
  | cons t rest ih =>
    intro vs h
    simp only [rots_for] at h
    split at h
    · exact absurd h (by simp)
    · split at h
      · exact absurd h (by simp)
      · cases h
        simpa using ih _ (by assumption)

/-- Every successfully assembled Motion Row has the fixed width 6 (root)
plus one column per non-root joint. -/
theorem build_row_ok_length (m : Mocap) (i : Nat) (tail : List String)
    (row : List Rat) (h : build_row m i tail = .ok row) :
    row.length = 6 + tail.length := by
  simp only [build_row] at h
  cases hpos : lookup_channels m i "Hips" ["Xposition", "Yposition", "Zposition"] with
  | error e => rw [hpos] at h; exact absurd h (by simp)
  | ok pos =>
    rw [hpos] at h
    cases hrot : lookup_channels m i "Hips" ["Zrotation", "Xrotation", "Yrotation"] with
    | error e => rw [hrot] at h; exact absurd h (by simp)
    | ok rot =>
      rw [hrot] at h
      cases hrots : rots_for m i tail with
      | error e => rw [hrots] at h; exact absurd h (by simp)
      | ok rots =>
        rw [hrots] at h
        injection h with h
        subst h
        have h1 := lookup_channels_ok_length m i "Hips" _ _ hpos
        have h2 := lookup_channels_ok_length m i "Hips" _ _ hrot
        have h3 := rots_for_ok_length m i _ _ hrots
        simp only [List.length_append, h1, h2, h3, List.length_cons,
          List.length_nil]

/-- A successful frame build produces exactly the declared number of
rows. -/
theorem build_frames_ok_length (m : Mocap) (tail : List String) :
    ∀ (n : Nat) (fs : List (List Rat)),
      build_frames m tail n = .ok fs → fs.length = n := by
  intro n
  induction n with
  | zero =>
    intro fs h
    simp only [build_frames] at h
    cases h
    rfl
  | succ k ih =>
    intro fs h
    simp only [build_frames] at h
    cases hprev : build_frames m tail k with
    | error e => rw [hprev] at h; exact absurd h (by simp)
    | ok prev =>
      rw [hprev] at h
      cases hrow : build_row m k tail with
      | error e => rw [hrow] at h; exact absurd h (by simp)
      | ok row =>
        rw [hrow] at h
        injection h with h
        subst h
        simp [ih _ hprev]

/-- The i-th row of a successful frame build is exactly the row assembled
for frame i. -/
theorem build_frames_ok_get (m : Mocap) (tail : List String) :
    ∀ (n : Nat) (fs : List (List Rat)),
      build_frames m tail n = .ok fs →
      ∀ (i : Nat) (row : List Rat), fs.get? i = some row →
        build_row m i tail = .ok row := by
  intro n
  induction n with
  | zero =>
    intro fs h i row hget
    simp only [build_frames] at h
    cases h
    simp at hget
  | succ k ih =>
    intro fs h i row hget
    simp only [build_frames] at h
    cases hprev : build_frames m tail k with
    | error e => rw [hprev] at h; exact absurd h (by simp)
    | ok prev =>
      rw [hprev] at h
      cases hrow : build_row m k tail with
      | error e => rw [hrow] at h; exact absurd h (by simp)
      | ok rowk =>
        rw [hrow] at h
        injection h with h
        subst h
        have hlen := build_frames_ok_length m tail k prev hprev
        by_cases hi : i < prev.length
        · rw [List.get?_append hi] at hget
          exact ih _ hprev i row hget
        · have h2 : prev.length ≤ i := Nat.le_of_not_lt hi
          rw [List.get?_append_right h2] at hget
          cases hd : i - prev.length with
          | zero =>
            rw [hd] at hget
            injection hget with hget
            subst hget
            have : i = k := by omega
            rw [this]
            exact hrow
          | succ j =>
            rw [hd] at hget
            simp at hget

/-- Every row of a successful frame build was assembled by `build_row` for
some frame index. -/
theorem build_frames_ok_mem (m : Mocap) (tail : List String) (n : Nat)
    (fs : List (List Rat)) (h : build_frames m tail n = .ok fs) :
    ∀ row ∈ fs, ∃ i, build_row m i tail = .ok row := by
  intro row hrow
  obtain ⟨i, hi⟩ := List.mem_iff_get?.mp hrow
  exact ⟨i, build_frames_ok_get m tail n fs h i row hi⟩

/-- A frame-0 assembly failure aborts the whole build whenever at least one
frame is declared, with that same error. -/
theorem build_frames_error_of_row0 (m : Mocap) (tail : List String)
    (e : ParseError) (h : build_row m 0 tail = .error e) :
    ∀ (n : Nat), 1 ≤ n → build_frames m tail n = .error e := by
  intro n
  induction n with
  | zero => intro h0; exact absurd h0 (by omega)
  | succ k ih =>
    intro _
    cases k with
    | zero =>
      rw [build_frames, build_frames, h]
    | succ j =>
      rw [build_frames, ih (by omega)]

/-- Inversion of a successful parse: the joint names are the depth-first
names of the file's joints, the frame matrix is the assembled frame build
for the declared frame count, and the frame time passes through. -/
theorem parse_bvh_ok_elim (m : Mocap) (d : MotionData)
    (h : parse_bvh m = .ok d) :
    d.joint_names = m.joints.map Joint.name ∧
    build_frames m (d.joint_names.drop 1) m.nframes = .ok d.frames ∧
    d.frame_time = m.frame_time ∧ d.joint_names ≠ [] := by
  cases hj : m.joints with
  | nil =>
    simp only [parse_bvh] at h
    rw [hj] at h
    exact absurd h (by simp)
  | cons j rest =>
    simp only [parse_bvh] at h
    rw [hj] at h
    cases hb : build_frames m (((j :: rest).map Joint.name).drop 1) m.nframes with
    | error e => rw [hb] at h; exact absurd h (by simp)
    | ok fs =>
      rw [hb] at h
      injection h with h
      subst h
      exact ⟨rfl, hb, rfl, by simp⟩

/-- Claim C6: for every input file whose hierarchy block is missing
entirely, the parse fails with the malformed-header error, raised before
any frame processing takes place, and no dataset is produced: the failure
does not depend on the frame data or the declared frame count. -/
theorem missing_hierarchy_malformed (m : Mocap) (h : m.joints = []) :
    parse_bvh m = .error .malformedHeader := by
  simp only [parse_bvh, h]

/-- Claim C6 witness: a file without a hierarchy block but with frame data
and a nonzero declared frame count still fails with the malformed-header
error. -/
theorem missing_hierarchy_malformed_witness :
    parse_bvh ⟨[], [[1, 2, 3]], 5, 7⟩ = .error .malformedHeader :=
  missing_hierarchy_malformed ⟨[], [[1, 2, 3]], 5, 7⟩ rfl

/-- Claim C8: parsing is deterministic — the parse result is a pure
function of the tokenised file, so two invocations on the same file text
yield bit-identical Motion Datasets. -/
theorem parse_bvh_deterministic (m1 m2 : Mocap) (h : m1 = m2) :
    parse_bvh m1 = parse_bvh m2 := by
  rw [h]

/-- Claim C8 witness: two parses of the section 8 scenario file agree. -/
theorem parse_bvh_deterministic_witness :
    parse_bvh ex_mocap = parse_bvh ex_mocap :=
  parse_bvh_deterministic ex_mocap ex_mocap rfl

/-- Claim C9: a file with the hierarchy block present but zero declared
frames parses successfully into a dataset with an empty frame sequence and
the joint name list still fully populated in declaration order. -/
theorem zero_frames_dataset (m : Mocap) (h : m.joints ≠ [])
    (h0 : m.nframes = 0) :
    parse_bvh m = .ok ⟨m.joints.map Joint.name, [], m.frame_time⟩ := by
  cases hj : m.joints with
  | nil => exact absurd hj h
  | cons j rest =>
    simp only [parse_bvh, hj, h0, build_frames]

/-- Claim C9 witness: a two-joint skeleton with zero declared frames
parses to the populated joint list and an empty frame matrix. -/
theorem zero_frames_dataset_witness :
    parse_bvh ⟨[⟨"Hips", root_channel_order⟩, ⟨"Spine", ["Yrotation"]⟩],
        [], 0, 4⟩ =
      .ok ⟨["Hips", "Spine"], [], 4⟩ :=
  zero_frames_dataset _ (by decide) rfl

/-- Claim C2: the non-root resolver tries the rotation channels in the
fixed order Z, then Y, then X, and emits the first one present: a present
Z-rotation channel always supplies the value; with Z missing a present
Y-rotation channel supplies it; with Z and Y missing a present X-rotation
channel supplies it. -/
theorem resolve_rot_priority (m : Mocap) (i : Nat) (j : String) (v : Rat) :
    (frame_joint_channel m i j "Zrotation" = .ok v →
      resolve_rot m i j = .ok v) ∧
    (missing_channel_result (frame_joint_channel m i j "Zrotation") = true →
      frame_joint_channel m i j "Yrotation" = .ok v →
      resolve_rot m i j = .ok v) ∧
    (missing_channel_result (frame_joint_channel m i j "Zrotation") = true →
      missing_channel_result (frame_joint_channel m i j "Yrotation") = true →
      frame_joint_channel m i j "Xrotation" = .ok v →
      resolve_rot m i j = .ok v) := by
  refine ⟨?_, ?_, ?_⟩
  · intro hz
    simp only [resolve_rot, try_axes, hz]
  · intro hmz hy
    cases hz : frame_joint_channel m i j "Zrotation" with
    | ok w => rw [hz] at hmz; simp [missing_channel_result] at hmz
    | error e =>
      rw [hz] at hmz
      simp only [missing_channel_result] at hmz
      simp only [resolve_rot, try_axes, hz, hmz, if_true, hy]
  · intro hmz hmy hx
    cases hz : frame_joint_channel m i j "Zrotation" with
    | ok w => rw [hz] at hmz; simp [missing_channel_result] at hmz
    | error e =>
      rw [hz] at hmz
      simp only [missing_channel_result] at hmz
      cases hy : frame_joint_channel m i j "Yrotation" with
      | ok w => rw [hy] at hmy; simp [missing_channel_result] at hmy
      | error f =>
        rw [hy] at hmy
        simp only [missing_channel_result] at hmy
        simp only [resolve_rot, try_axes, hz, hmz, if_true, hy, hmy, hx]

/-- Claim C2 witness: in the priority scenario file, joint "A" (all three
rotation axes present) resolves to its Z sample, never the Y or X sample;
joint "B" (Y and X only) resolves to its Y sample; joint "C" (X only)
resolves to its X sample. -/
theorem resolve_rot_priority_witness :
    resolve_rot ex_prio 0 "A" = .ok 41 ∧
    resolve_rot ex_prio 0 "B" = .ok 51 ∧
    resolve_rot ex_prio 0 "C" = .ok 61 :=
  ⟨(resolve_rot_priority ex_prio 0 "A" 41).1 (by decide),
   (resolve_rot_priority ex_prio 0 "B" 51).2.1 (by decide) (by decide),
   (resolve_rot_priority ex_prio 0 "C" 61).2.2 (by decide) (by decide)
     (by decide)⟩

/-- Claim C3: a non-root joint with none of the Z-, Y- or X-rotation
channels resolves to exactly 0, and this is a successful result, not an
error — the parse continues. -/
theorem resolve_rot_default_zero (m : Mocap) (i : Nat) (j : String)
    (hz : missing_channel_result (frame_joint_channel m i j "Zrotation") = true)
    (hy : missing_channel_result (frame_joint_channel m i j "Yrotation") = true)
    (hx : missing_channel_result (frame_joint_channel m i j "Xrotation") = true) :
    resolve_rot m i j = .ok 0 := by
  cases hz2 : frame_joint_channel m i j "Zrotation" with
  | ok w => rw [hz2] at hz; simp [missing_channel_result] at hz
  | error e =>
    rw [hz2] at hz
    simp only [missing_channel_result] at hz
    cases hy2 : frame_joint_channel m i j "Yrotation" with
    | ok w => rw [hy2] at hy; simp [missing_channel_result] at hy
    | error f =>
      rw [hy2] at hy
      simp only [missing_channel_result] at hy
      cases hx2 : frame_joint_channel m i j "Xrotation" with
      | ok w => rw [hx2] at hx; simp [missing_channel_result] at hx
      | error g =>
        rw [hx2] at hx
        simp only [missing_channel_result] at hx
        simp only [resolve_rot, try_axes, hz2, hz, if_true, hy2, hy, hx2, hx]

/-- Claim C3 witness: the "Head" joint of the section 8 scenario file has
no rotation channel at all and resolves to 0 without error. -/
theorem resolve_rot_default_zero_witness :
    resolve_rot ex_mocap 0 "Head" = .ok 0 :=
  resolve_rot_default_zero ex_mocap 0 "Head" (by decide) (by decide)
    (by decide)

/-- Inversion of a successful lookup of the empty channel list. -/
theorem lookup_channels_nil_ok (m : Mocap) (i : Nat) (joint : String)
    (vs : List Rat) (h : lookup_channels m i joint [] = .ok vs) : vs = [] := by
  simp only [lookup_channels] at h
  cases h
  rfl

/-- Claim C1: for every valid input file (one the parser accepts), the
dataset has exactly the declared number of frames, and every row has the
uniform width of the joint count plus 5 — six root values plus one scalar
per non-root joint. -/
theorem parse_bvh_frames_shape (m : Mocap) (d : MotionData)
    (h : parse_bvh m = .ok d) :
    d.frames.length = m.nframes ∧
    ∀ row ∈ d.frames, row.length = d.joint_names.length + 5 := by
  obtain ⟨hnames, hbuild, hft, hne⟩ := parse_bvh_ok_elim m d h
  refine ⟨build_frames_ok_length m _ _ _ hbuild, ?_⟩
  intro row hrow
  obtain ⟨i, hi⟩ := build_frames_ok_mem m _ _ _ hbuild row hrow
  have hl := build_row_ok_length m i _ row hi
  have hpos : 0 < d.joint_names.length := List.length_pos.mpr hne
  rw [hl, List.length_drop]
  omega

/-- Claim C1 witness: the section 8 scenario file (3 joints, 2 declared
frames) yields 2 rows of width 8. -/
theorem parse_bvh_frames_shape_witness :
    ex_motion.frames.length = ex_mocap.nframes ∧
    ∀ row ∈ ex_motion.frames,
      row.length = ex_motion.joint_names.length + 5 :=
  parse_bvh_frames_shape ex_mocap ex_motion (by decide)

/-- Claim C4 counterexample: `cex_mocap` is a valid input (its parse
succeeds), its root joint is ⟨"Root", ...⟩ whose own X-position channel
sample at frame 0 is 1 (read under the root's actual name "Root"), yet the
emitted row's first value is 7 — the sample of the non-root joint named
"Hips" — so the row's first three values do not equal the root joint's
position samples and the claim as stated is false. -/
theorem root_channel_order_refuted :
    parse_bvh cex_mocap =
      .ok ⟨["Root", "Hips"], [[7, 8, 9, 10, 11, 12, 10]], 9⟩ ∧
    cex_mocap.joints.getD 0 default = ⟨"Root", root_channel_order⟩ ∧
    frame_joint_channel cex_mocap 0 "Root" "Xposition" = .ok 1 ∧
    (7 : Rat) ≠ 1 :=
  ⟨by decide, by decide, by decide, by decide⟩

/-- Claim C4 (amended): in every row of every successfully parsed file,
the first three values are the X-, Y-, Z-position channel samples of the
joint looked up under the literal name "Hips", unmodified and in that
order, and the next three are that joint's Z-, X-, Y-rotation channel
samples in exactly that order (when the root is named "Hips", as in every
well-formed MotionBuilder file, that joint is the root). -/
theorem root_channel_order_exact (m : Mocap) (d : MotionData)
    (h : parse_bvh m = .ok d) (i : Nat) (row : List Rat)
    (hrow : d.frames.get? i = some row) :
    frame_joint_channel m i "Hips" "Xposition" = .ok (row.getD 0 0) ∧
    frame_joint_channel m i "Hips" "Yposition" = .ok (row.getD 1 0) ∧
    frame_joint_channel m i "Hips" "Zposition" = .ok (row.getD 2 0) ∧
    frame_joint_channel m i "Hips" "Zrotation" = .ok (row.getD 3 0) ∧
    frame_joint_channel m i "Hips" "Xrotation" = .ok (row.getD 4 0) ∧
    frame_joint_channel m i "Hips" "Yrotation" = .ok (row.getD 5 0) := by
  obtain ⟨hnames, hbuild, hft, hne⟩ := parse_bvh_ok_elim m d h
  have hbr := build_frames_ok_get m _ _ _ hbuild i row hrow
  simp only [build_row] at hbr
  cases hposl : lookup_channels m i "Hips"
      ["Xposition", "Yposition", "Zposition"] with
  | error e => rw [hposl] at hbr; exact absurd hbr (by simp)
  | ok pos =>
    rw [hposl] at hbr
    cases hrotl : lookup_channels m i "Hips"
        ["Zrotation", "Xrotation", "Yrotation"] with
    | error e => rw [hrotl] at hbr; exact absurd hbr (by simp)
    | ok rot =>
      rw [hrotl] at hbr
      cases hrots : rots_for m i (d.joint_names.drop 1) with
      | error e => rw [hrots] at hbr; exact absurd hbr (by simp)
      | ok rots =>
        rw [hrots] at hbr
        injection hbr with hbr
        obtain ⟨v1, p1, h1, hp1, rfl⟩ :=
          lookup_channels_cons_ok _ _ _ _ _ _ hposl
        obtain ⟨v2, p2, h2, hp2, rfl⟩ :=
          lookup_channels_cons_ok _ _ _ _ _ _ hp1
        obtain ⟨v3, p3, h3, hp3, rfl⟩ :=
          lookup_channels_cons_ok _ _ _ _ _ _ hp2
        have hnil := lookup_channels_nil_ok _ _ _ _ hp3
        subst hnil
        obtain ⟨w1, q1, g1, hq1, rfl⟩ :=
          lookup_channels_cons_ok _ _ _ _ _ _ hrotl
        obtain ⟨w2, q2, g2, hq2, rfl⟩ :=
          lookup_channels_cons_ok _ _ _ _ _ _ hq1
        obtain ⟨w3, q3, g3, hq3, rfl⟩ :=
          lookup_channels_cons_ok _ _ _ _ _ _ hq2
        have hnil2 := lookup_channels_nil_ok _ _ _ _ hq3
        subst hnil2
        subst hbr
        refine ⟨?_, ?_, ?_, ?_, ?_, ?_⟩ <;>
          simp [h1, h2, h3, g1, g2, g3, List.getD]

/-- Claim C4 witness: in the section 8 scenario file the root declares its
channels in the order (Xpos, Ypos, Zpos, Xrot, Yrot, Zrot) with frame-0
samples (1,2,3,4,5,6), yet the emitted row starts with positions (1,2,3)
followed by rotations in (Z,X,Y) order: (6,4,5). -/
theorem root_channel_order_exact_witness :
    frame_joint_channel ex_mocap 0 "Hips" "Xposition" = .ok 1 ∧
    frame_joint_channel ex_mocap 0 "Hips" "Yposition" = .ok 2 ∧
    frame_joint_channel ex_mocap 0 "Hips" "Zposition" = .ok 3 ∧
    frame_joint_channel ex_mocap 0 "Hips" "Zrotation" = .ok 6 ∧
    frame_joint_channel ex_mocap 0 "Hips" "Xrotation" = .ok 4 ∧
    frame_joint_channel ex_mocap 0 "Hips" "Yrotation" = .ok 5 :=
  root_channel_order_exact ex_mocap ex_motion (by decide) 0
    [1, 2, 3, 6, 4, 5, 7, 0] (by decide)

/-- A channel absent from a declaration list has no index. -/
theorem index_of_channel_eq_none (ch : String) :
    ∀ cs : List String, ch ∉ cs → index_of_channel ch cs = none := by
  intro cs
  induction cs with
  | nil => intro _; rfl
  | cons c rest ih =>
    intro h
    have hc : ¬ c = ch := by
      intro hcc
      exact h (by rw [← hcc]; exact List.mem_cons_self c rest)
    have hr : ch ∉ rest := fun hr => h (List.mem_cons_of_mem c hr)
    simp [index_of_channel, hc, ih hr]

/-- A declared channel has an index within the declaration list. -/
theorem index_of_channel_some_of_mem (ch : String) :
    ∀ cs : List String, ch ∈ cs →
      ∃ k, index_of_channel ch cs = some k ∧ k < cs.length := by
  intro cs
  induction cs with
  | nil => intro h; simp at h
  | cons c rest ih =>
    intro h
    by_cases hc : c = ch
    · exact ⟨0, by simp [index_of_channel, hc], by simp⟩
    · have hr : ch ∈ rest := by
        rcases List.mem_cons.mp h with h1 | h1
        · exact absurd h1.symm hc
        · exact h1
      obtain ⟨k, hk, hklt⟩ := ih hr
      refine ⟨k + 1, by simp [index_of_channel, hc, hk], ?_⟩
      simp only [List.length_cons]
      omega

/-- The joint heading the list is found at channel offset 0. -/
theorem find_joint_cons_eq (root : Joint) (rest : List Joint) (name : String)
    (h : root.name = name) :
    find_joint (root :: rest) name = some (root, 0) := by
  simp [find_joint, h]

/-- When no joint bears the requested name the search fails. -/
theorem find_joint_eq_none (name : String) :
    ∀ js : List Joint, (∀ j ∈ js, j.name ≠ name) →
      find_joint js name = none := by
  intro js
  induction js with
  | nil => intro _; rfl
  | cons j0 rest ih =>
    intro h
    have hc : ¬ j0.name = name := h j0 (List.mem_cons_self j0 rest)
    simp [find_joint, hc, ih (fun j2 hj2 => h j2 (List.mem_cons_of_mem j0 hj2))]

/-- A channel the root joint declares is always readable in a frame whose
row covers the root's channels. -/
theorem frame_joint_channel_root_ok (m : Mocap) (root : Joint)
    (rest : List Joint) (hj : m.joints = root :: rest)
    (hname : root.name = "Hips") (i : Nat) (row : List Rat)
    (hrow : m.frames.get? i = some row)
    (hlen : root.channels.length ≤ row.length)
    (ch : String) (hch : ch ∈ root.channels) :
    ∃ v, frame_joint_channel m i "Hips" ch = .ok v := by
  obtain ⟨k, hk, hklt⟩ := index_of_channel_some_of_mem ch root.channels hch
  have hfind : find_joint m.joints "Hips" = some (root, 0) := by
    rw [hj]
    exact find_joint_cons_eq root rest "Hips" hname
  cases hv : row.get? (0 + k) with
  | none =>
    have hle := List.get?_eq_none.mp hv
    omega
  | some v =>
    refine ⟨v, ?_⟩
    simp only [frame_joint_channel, hfind, hk, hrow, hv]

/-- A channel the root joint does not declare fails with the
missing-channel condition. -/
theorem frame_joint_channel_root_missing (m : Mocap) (root : Joint)
    (rest : List Joint) (hj : m.joints = root :: rest)
    (hname : root.name = "Hips") (i : Nat) (ch : String)
    (hch : ch ∉ root.channels) :
    frame_joint_channel m i "Hips" ch =
      .error (.missingChannel "Hips" ch i) := by
  have hfind : find_joint m.joints "Hips" = some (root, 0) := by
    rw [hj]
    exact find_joint_cons_eq root rest "Hips" hname
  simp only [frame_joint_channel, hfind,
    index_of_channel_eq_none ch root.channels hch]

/-- Looking up only channels the root declares succeeds. -/
theorem lookup_channels_ok_of_present (m : Mocap) (root : Joint)
    (rest : List Joint) (hj : m.joints = root :: rest)
    (hname : root.name = "Hips") (i : Nat) (row : List Rat)
    (hrow : m.frames.get? i = some row)
    (hlen : root.channels.length ≤ row.length) :
    ∀ cs : List String, (∀ c ∈ cs, c ∈ root.channels) →
      ∃ vs, lookup_channels m i "Hips" cs = .ok vs := by
  intro cs
  induction cs with
  | nil => intro _; exact ⟨[], rfl⟩
  | cons c rest2 ih =>
    intro hall
    obtain ⟨v, hv⟩ := frame_joint_channel_root_ok m root rest hj hname i row
      hrow hlen c (hall c (List.mem_cons_self c rest2))
    obtain ⟨vs, hvs⟩ := ih (fun c2 hc2 => hall c2 (List.mem_cons_of_mem c hc2))
    exact ⟨v :: vs, by simp only [lookup_channels, hv, hvs]⟩

/-- Looking up a channel list one of whose members the root does not
declare fails with the missing-channel condition for the first such
member. -/
theorem lookup_channels_missing_error (m : Mocap) (root : Joint)
    (rest : List Joint) (hj : m.joints = root :: rest)
    (hname : root.name = "Hips") (i : Nat) (row : List Rat)
    (hrow : m.frames.get? i = some row)
    (hlen : root.channels.length ≤ row.length) :
    ∀ cs : List String, (∃ c0 ∈ cs, c0 ∉ root.channels) →
      ∃ ch, ch ∈ cs ∧
        lookup_channels m i "Hips" cs =
          .error (.missingChannel "Hips" ch i) := by
  intro cs
  induction cs with
  | nil => intro h; simp at h
  | cons c rest2 ih =>
    intro hex
    by_cases hc : c ∈ root.channels
    · obtain ⟨v, hv⟩ := frame_joint_channel_root_ok m root rest hj hname i row
        hrow hlen c hc
      have h2 : ∃ c0 ∈ rest2, c0 ∉ root.channels := by
        obtain ⟨c0, hc0mem, hc0⟩ := hex
        rcases List.mem_cons.mp hc0mem with h1 | h1
        · exact absurd (by rw [h1]; exact hc) hc0
        · exact ⟨c0, h1, hc0⟩
      obtain ⟨ch, hchmem, herr⟩ := ih h2
      refine ⟨ch, List.mem_cons_of_mem c hchmem, ?_⟩
      simp only [lookup_channels, hv, herr]
    · refine ⟨c, List.mem_cons_self c rest2, ?_⟩
      have hmiss := frame_joint_channel_root_missing m root rest hj hname i c hc
      simp only [lookup_channels, hmiss]

/-- When some mandatory root channel is absent, the assembly of frame 0
fails with a missing-channel error on one of the six mandatory root
channels. -/
theorem build_row_missing_error (m : Mocap) (root : Joint)
    (rest : List Joint) (hj : m.joints = root :: rest)
    (hname : root.name = "Hips") (row : List Rat)
    (hrow : m.frames.get? 0 = some row)
    (hlen : root.channels.length ≤ row.length) (c : String)
    (hc : c ∈ root_channel_order) (habs : c ∉ root.channels)
    (tail : List String) :
    ∃ ch, ch ∈ root_channel_order ∧
      build_row m 0 tail = .error (.missingChannel "Hips" ch 0) := by
  by_cases hpos : ∀ c2 ∈ (["Xposition", "Yposition", "Zposition"] :
      List String), c2 ∈ root.channels
  · have hx := hpos "Xposition" (by simp)
    have hy := hpos "Yposition" (by simp)
    have hz := hpos "Zposition" (by simp)
    have hcrot : c ∈ (["Zrotation", "Xrotation", "Yrotation"] :
        List String) := by
      simp only [root_channel_order, List.mem_cons, List.not_mem_nil,
        or_false] at hc
      rcases hc with rfl | rfl | rfl | rfl | rfl | rfl
      · exact absurd hx habs
      · exact absurd hy habs
      · exact absurd hz habs
      · simp
      · simp
      · simp
    obtain ⟨vs, hvs⟩ := lookup_channels_ok_of_present m root rest hj hname 0
      row hrow hlen ["Xposition", "Yposition", "Zposition"] hpos
    obtain ⟨ch, hchmem, herr⟩ := lookup_channels_missing_error m root rest hj
      hname 0 row hrow hlen ["Zrotation", "Xrotation", "Yrotation"]
      ⟨c, hcrot, habs⟩
    refine ⟨ch, ?_, ?_⟩
    · simp only [List.mem_cons, List.not_mem_nil, or_false] at hchmem
      simp only [root_channel_order, List.mem_cons, List.not_mem_nil,
        or_false]
      tauto
    · simp only [build_row, hvs, herr]
  · push_neg at hpos
    obtain ⟨c2, hc2mem, hc2⟩ := hpos
    obtain ⟨ch, hchmem, herr⟩ := lookup_channels_missing_error m root rest hj
      hname 0 row hrow hlen ["Xposition", "Yposition", "Zposition"]
      ⟨c2, hc2mem, hc2⟩
    refine ⟨ch, ?_, ?_⟩
    · simp only [List.mem_cons, List.not_mem_nil, or_false] at hchmem
      simp only [root_channel_order, List.mem_cons, List.not_mem_nil,
        or_false]
      tauto
    · simp only [build_row, herr]

/-- A failing frame build makes the whole parse fail with the same error
whenever the hierarchy block is present. -/
theorem parse_bvh_error_of_build (m : Mocap) (j0 : Joint)
    (rest : List Joint) (e : ParseError) (hj : m.joints = j0 :: rest)
    (hb : build_frames m ((m.joints.map Joint.name).drop 1) m.nframes =
      .error e) :
    parse_bvh m = .error e := by
  rw [hj] at hb
  simp only [parse_bvh, hj, hb]

/-- Claim C5 counterexample: `cex5_mocap` has one frame and a root joint
that lacks the mandatory Y-rotation channel, yet the parse fails with the
joint-lookup error for "Hips" — which is not of the missing-channel
kind — because the root is named "Root"; so the claim that any such input
fails with a missing-channel error is false as stated. -/
theorem root_missing_channel_refuted :
    cex5_mocap.joints.getD 0 default =
      ⟨"Root", ["Xposition", "Yposition", "Zposition", "Zrotation",
        "Xrotation"]⟩ ∧
    "Yrotation" ∈ root_channel_order ∧
    "Yrotation" ∉ (cex5_mocap.joints.getD 0 default).channels ∧
    1 ≤ cex5_mocap.nframes ∧
    parse_bvh cex5_mocap = .error (.jointNotFound "Hips") ∧
    is_missing_channel (.jointNotFound "Hips") = false :=
  ⟨by decide, by decide, by decide, by decide, by decide, by decide⟩

/-- Claim C5 (amended): if the root joint is named "Hips" and any of the
six mandatory root channels (X/Y/Z position, Z/X/Y rotation) is absent for
it, the parse of any input with at least one frame (and frame rows
matching the header's channel count) fails with a missing-channel error on
one of those six channels, at frame 0, and no dataset is returned. -/
theorem root_missing_channel_fatal (m : Mocap) (root : Joint)
    (rest : List Joint) (c : String)
    (hj : m.joints = root :: rest) (hname : root.name = "Hips")
    (hc : c ∈ root_channel_order) (habs : c ∉ root.channels)
    (hfr : 1 ≤ m.nframes) (hcnt : m.nframes ≤ m.frames.length)
    (hrows : ∀ row ∈ m.frames, row.length = total_channels m.joints) :
    ∃ ch, ch ∈ root_channel_order ∧
      parse_bvh m = .error (.missingChannel "Hips" ch 0) := by
  cases hrow0 : m.frames.get? 0 with
  | none =>
    have hle := List.get?_eq_none.mp hrow0
    omega
  | some row =>
    have hmem : row ∈ m.frames := List.get?_mem hrow0
    have hrl : row.length = total_channels m.joints := hrows row hmem
    have hrootlen : root.channels.length ≤ row.length := by
      rw [hrl, hj]
      simp only [total_channels, List.map_cons, List.sum_cons]
      omega
    obtain ⟨ch, hchmem, herr⟩ := build_row_missing_error m root rest hj hname
      row hrow0 hrootlen c hc habs ((m.joints.map Joint.name).drop 1)
    refine ⟨ch, hchmem, ?_⟩
    exact parse_bvh_error_of_build m root rest _ hj
      (build_frames_error_of_row0 m _ _ herr m.nframes hfr)

/-- Claim C5 witness: a one-joint file whose root "Hips" lacks the
Y-rotation channel but has one complete frame fails with a missing-channel
error on a mandatory root channel. -/
theorem root_missing_channel_fatal_witness :
    ∃ ch, ch ∈ root_channel_order ∧
      parse_bvh ⟨[⟨"Hips", ["Xposition", "Yposition", "Zposition",
          "Zrotation", "Xrotation"]⟩], [[1, 2, 3, 4, 5]], 1, 6⟩ =
        .error (.missingChannel "Hips" ch 0) :=
  root_missing_channel_fatal
    ⟨[⟨"Hips", ["Xposition", "Yposition", "Zposition", "Zrotation",
        "Xrotation"]⟩], [[1, 2, 3, 4, 5]], 1, 6⟩
    ⟨"Hips", ["Xposition", "Yposition", "Zposition", "Zrotation",
        "Xrotation"]⟩
    [] "Yrotation" rfl rfl (by decide) (by decide) (by decide) (by decide)
    (by decide)
/-- Claim C10 counterexample: `cex_mocap` has a root named "Root" (not
"Hips") declaring all six mandatory channels and one frame, yet the parse
succeeds — the by-name lookup finds the non-root joint named "Hips" — so
the claim that every such file fails is false as stated. -/
theorem hips_literal_counterexample :
    cex_mocap.joints.head? = some ⟨"Root", root_channel_order⟩ ∧
    "Root" ≠ "Hips" ∧ 1 ≤ cex_mocap.nframes ∧
    parse_bvh cex_mocap =
      .ok ⟨["Root", "Hips"], [[7, 8, 9, 10, 11, 12, 10]], 9⟩ :=
  ⟨rfl, by decide, by decide, by decide⟩

/-- Claim C10 (amended): the root's six channel values are looked up under
the literal joint name "Hips", not under the first joint in skeleton
order: for every input file with at least one frame whose root joint has a
name other than "Hips" — and in which no other joint is named "Hips"
either — the parse fails on the root channel lookup (with the joint-lookup
failure), even if the root declares all six mandatory channels. -/
theorem hips_literal_amended (m : Mocap) (j0 : Joint) (rest : List Joint)
    (hj : m.joints = j0 :: rest)
    (hnames : ∀ j ∈ m.joints, j.name ≠ "Hips")
    (hfr : 1 ≤ m.nframes) :
    parse_bvh m = .error (.jointNotFound "Hips") := by
  have hfind : find_joint m.joints "Hips" = none :=
    find_joint_eq_none "Hips" m.joints hnames
  have hfjc : ∀ ch, frame_joint_channel m 0 "Hips" ch =
      .error (.jointNotFound "Hips") := by
    intro ch
    simp only [frame_joint_channel, hfind]
  have hrow : build_row m 0 ((m.joints.map Joint.name).drop 1) =
      .error (.jointNotFound "Hips") := by
    simp only [build_row, lookup_channels, hfjc]
  exact parse_bvh_error_of_build m j0 rest _ hj
    (build_frames_error_of_row0 m _ _ hrow m.nframes hfr)

/-- Claim C10 (amended) witness: a one-frame file whose only joint is the
root "Root" with all six mandatory channels fails on the "Hips" lookup. -/
theorem hips_literal_amended_witness :
    parse_bvh ⟨[⟨"Root", root_channel_order⟩], [[1, 2, 3, 4, 5, 6]], 1, 8⟩ =
      .error (.jointNotFound "Hips") :=
  hips_literal_amended
    ⟨[⟨"Root", root_channel_order⟩], [[1, 2, 3, 4, 5, 6]], 1, 8⟩
    ⟨"Root", root_channel_order⟩ [] rfl (by decide) (by decide)
